import Mathlib

/-!
Verification of the opensafely job-runner's project-resolution core.

This file shallowly embeds `runner/project.py` and `runner/utils.py`:
pure Python functions become Lean functions, the filesystem becomes an
explicit list of existing paths, `os.environ` becomes an explicit
`Environ` record, and raised exceptions become `Except PyErr` values.
All definitions are structurally recursive so that concrete runs of the
embedded code evaluate by `rfl` / `decide`.

String primitives used by the Python code (`str.replace`, `str.split`,
`str.upper`, `os.path.join`, `posixpath.normpath`,
`os.path.commonprefix`, `pathlib` joining, `urlparse(...).path`,
`shlex.split`, `str.format`) are modelled here on `List Char`.
-/

/-- Boolean string-prefix test on character lists (first argument is the
candidate prefix). -/
def isPrefixList : List Char → List Char → Bool
  | [], _ => true
  | _ :: _, [] => false
  | p :: ps, c :: cs => p = c && isPrefixList ps cs

/-- Boolean substring test on character lists: does `sub` occur anywhere
inside `s`? -/
def listContainsSub (s sub : List Char) : Bool :=
  match s with
  | [] => isPrefixList sub []
  | _ :: rest => isPrefixList sub s || listContainsSub rest sub

/-- Model of Python `str.split(sep)` for a one-character separator:
splits on every occurrence, keeping empty pieces, so the result is
always non-empty. -/
def splitOnChar (sep : Char) : List Char → List (List Char)
  | [] => [[]]
  | c :: rest =>
    match splitOnChar sep rest with
    | [] => [[c]]
    | h :: t => if c = sep then [] :: h :: t else (c :: h) :: t

/-- Fuel-driven worker for `pyReplace`; with fuel `≥ length s` and a
non-empty pattern it performs Python's left-to-right, non-overlapping
`str.replace`. -/
def replaceFuel : Nat → List Char → List Char → List Char → List Char
  | 0, s, _, _ => s
  | fuel + 1, s, pat, rep =>
    match s with
    | [] => []
    | c :: rest =>
      if pat ≠ [] && isPrefixList pat s then rep ++ replaceFuel fuel (s.drop pat.length) pat rep
      else c :: replaceFuel fuel rest pat rep

/-- Model of Python `s.replace(pat, rep)` for a non-empty pattern
(every use in the embedded source has a non-empty pattern). -/
def pyReplace (s pat rep : String) : String :=
  String.mk (replaceFuel (s.toList.length + 1) s.toList pat.toList rep.toList)

/-- Model of Python `str.upper()` (the embedded source only applies it
to ASCII database-flavour names). -/
def pyUpper (s : String) : String :=
  String.mk (s.toList.map Char.toUpper)

/-- Join a list of strings with a separator, like `sep.join(parts)`. -/
def strIntercalate (sep : String) : List String → String
  | [] => ""
  | [x] => x
  | x :: y :: rest => x ++ sep ++ strIntercalate sep (y :: rest)

/-- Character-level worker for `commonprefixPy`. -/
def commonPfxList : List Char → List Char → List Char
  | a :: as_, b :: bs => if a = b then a :: commonPfxList as_ bs else []
  | _, _ => []

/-- Model of Python `os.path.commonprefix([x, y])`: the longest common
STRING prefix of the two paths (character-wise, not path-aware). -/
def commonprefixPy (x y : String) : String :=
  String.mk (commonPfxList x.toList y.toList)

/-- Model of the two-argument POSIX `os.path.join(a, b)`. -/
def os_path_join (a b : String) : String :=
  if isPrefixList ['/'] b.toList then b
  else if a = "" ∨ isPrefixList ['/'] a.toList.reverse then a ++ b
  else a ++ "/" ++ b

/-- Number of leading slashes that `posixpath.normpath` preserves
(two slashes exactly are kept as `//`, otherwise one). -/
def initialSlashCount (cs : List Char) : Nat :=
  if isPrefixList ['/'] cs then
    if isPrefixList ['/', '/'] cs ∧ ¬ isPrefixList ['/', '/', '/'] cs then 2 else 1
  else 0

/-- One step of `posixpath.normpath`'s component loop. -/
def normpathStep (initialSlashes : Nat) (acc : List String) (comp : String) : List String :=
  if comp = "" ∨ comp = "." then acc
  else if comp ≠ ".." ∨ (initialSlashes = 0 ∧ acc = []) ∨ (acc ≠ [] ∧ acc.getLast? = some "..") then
    acc ++ [comp]
  else if acc ≠ [] then acc.dropLast
  else acc

/-- Model of POSIX `os.path.normpath`: collapses `//` and `.` and
resolves `..` components lexically. -/
def normpath (p : String) : String :=
  if p = "" then "." else
  let cs := p.toList
  let slashes := initialSlashCount cs
  let comps := (splitOnChar '/' cs).map String.mk
  let newComps := comps.foldl (normpathStep slashes) []
  let out := String.mk (List.replicate slashes '/') ++ strIntercalate "/" newComps
  if out = "" then "." else out

/-- The root prefix a `PurePosixPath` keeps for a string (`//`, `/`, or
none). -/
def pposixRoot (s : String) : String :=
  let cs := s.toList
  if isPrefixList ['/', '/'] cs ∧ ¬ isPrefixList ['/', '/', '/'] cs then "//"
  else if isPrefixList ['/'] cs then "/"
  else ""

/-- The component list a `PurePosixPath` keeps for a string: slash-split
pieces with empty pieces and `.` dropped. -/
def pposixParts (s : String) : List String :=
  ((splitOnChar '/' s.toList).map String.mk).filter (fun p => !(p == "" || p == "."))

/-- Model of `str(PurePosixPath(s))`. -/
def purePathStr (s : String) : String :=
  let root := pposixRoot s
  let parts := pposixParts s
  if root = "" ∧ parts = [] then "." else root ++ strIntercalate "/" parts

/-- Model of `str(Path(a) / b)` for POSIX paths. -/
def pathDiv (a b : String) : String :=
  if pposixRoot b ≠ "" then purePathStr b
  else
    let root := pposixRoot a
    let parts := pposixParts a ++ pposixParts b
    if root = "" ∧ parts = [] then "." else root ++ strIntercalate "/" parts

/-- Characters permitted in a URL scheme by `urllib.parse`. -/
def schemeChar (c : Char) : Bool :=
  c.isAlpha || c.isDigit || c = '+' || c = '-' || c = '.'

/-- Model of `urlparse(url).path`: strips an optional `scheme:`, an
optional `//netloc`, then a `#fragment` and `?query` suffix. -/
def urlparse_path (url : String) : String :=
  let cs := url.toList
  let afterScheme :=
    match cs.span (fun c => !(c == ':')) with
    | (pre, ':' :: rest) => if pre ≠ [] ∧ pre.all schemeChar then rest else cs
    | _ => cs
  let afterNetloc :=
    if isPrefixList ['/', '/'] afterScheme then
      (afterScheme.drop 2).dropWhile (fun c => !(c == '/' || c == '?' || c == '#'))
    else afterScheme
  let beforeFrag := afterNetloc.takeWhile (fun c => !(c == '#'))
  String.mk (beforeFrag.takeWhile (fun c => !(c == '?')))

/-- Python values as they appear in a parsed `project.yaml` action
mapping (strings, integers, lists, string-keyed dictionaries). -/
inductive PyVal where
  | str (s : String)
  | int (n : Int)
  | list (xs : List PyVal)
  | dict (d : List (String × PyVal))

/-- Fuel-driven decimal digits of a natural number, least-significant
first. -/
def natDigitsFuel : Nat → Nat → List Char
  | 0, _ => []
  | _ + 1, 0 => []
  | fuel + 1, n =>
    Char.ofNat (48 + n % 10) :: natDigitsFuel fuel (n / 10)

/-- Decimal rendering of an integer (model of Python `str(int)`). -/
def pyIntStr (n : Int) : String :=
  let m := n.natAbs
  let digits := if m = 0 then ['0'] else (natDigitsFuel (m + 1) m).reverse
  (if n < 0 then "-" else "") ++ String.mk digits

/-- Model of Python `repr` of a string: quote with `'` (or `"` when the
text has a `'` but no `"`), escaping backslashes, the delimiter, and
common control characters. -/
def pyReprStr (s : String) : String :=
  let hasSingle := s.toList.contains '\x27'
  let hasDouble := s.toList.contains '"'
  let delim : Char := if hasSingle && !hasDouble then '"' else '\x27'
  let body := s.toList.map (fun c =>
    if c = '\\' then "\\\\"
    else if c = delim then "\\" ++ String.mk [delim]
    else if c = '\n' then "\\n"
    else if c = '\r' then "\\r"
    else if c = '\t' then "\\t"
    else String.mk [c])
  String.mk [delim] ++ strIntercalate "" body ++ String.mk [delim]

mutual

/-- Model of Python `str()` on a parsed-YAML value (containers render by
`repr` of their elements). -/
def pyValStr : PyVal → String
  | .str s => s
  | .int n => pyIntStr n
  | .list xs => "[" ++ strIntercalate ", " (pyValsRepr xs) ++ "]"
  | .dict d => "\x7b" ++ strIntercalate ", " (pyPairsRepr d) ++ "\x7d"

/-- Model of Python `repr()` on a parsed-YAML value. -/
def pyValRepr : PyVal → String
  | .str s => pyReprStr s
  | .int n => pyIntStr n
  | .list xs => "[" ++ strIntercalate ", " (pyValsRepr xs) ++ "]"
  | .dict d => "\x7b" ++ strIntercalate ", " (pyPairsRepr d) ++ "\x7d"

/-- Renders each element of a Python list by `repr`. -/
def pyValsRepr : List PyVal → List String
  | [] => []
  | x :: xs => pyValRepr x :: pyValsRepr xs

/-- Renders each entry of a Python dict as `repr(key): repr(value)`. -/
def pyPairsRepr : List (String × PyVal) → List String
  | [] => []
  | (k, v) :: xs => (pyReprStr k ++ ": " ++ pyValRepr v) :: pyPairsRepr xs

end

/-- Model of Python `repr` of a list of strings, as interpolated by the
`f"{name}_{args}"` run-signature in `load_and_validate_project_actions`. -/
def pyStrListRepr (xs : List String) : String :=
  "[" ++ strIntercalate ", " (xs.map pyReprStr) ++ "]"

/-- The exceptions the embedded code can raise.  Exception classes from
`runner.exceptions` carry their constructor message and, where the
source passes it, the `report_args` flag; Python builtin exceptions
(`KeyError`, `ValueError`, `AssertionError`, `TypeError`, `IndexError`,
`UnboundLocalError`) model uncaught interpreter errors. -/
inductive PyErr where
  | invalidRunInProjectFile (name : String)
  | duplicateRunInProjectFile (name : String) (args : List String) (report_args : Bool)
  | invalidVariableInProjectFile (msg : String) (report_args : Bool)
  | operationNotInProjectFile (op : String)
  | dependencyNotFinished (msg : String) (report_args : Bool)
  | openSafelyError (msg : String)
  | keyError (key : String)
  | valueError (msg : String)
  | assertionError (msg : String)
  | typeError (msg : String)
  | indexError
  | unboundLocalError (name : String)
deriving DecidableEq

/-- Characters matched by `[A-Za-z0-9.-_]` in the variable regex of
`variables_in_string`; note `.-_` is a character RANGE (0x2E–0x5F), so
it admits `/`, `:`, digits and more, but not a literal hyphen. -/
def isVarBodyChar (c : Char) : Bool :=
  c.isAlpha || c.isDigit || ('.' ≤ c && c ≤ '_')

/-- Consumes the optional single space of ` ?` in the variable regex. -/
def consumeSpace : List Char → (String × List Char)
  | ' ' :: t => (" ", t)
  | t => ("", t)

/-- Attempts to match the regex
`(\$\{\{ ?([A-Za-z][A-Za-z0-9.-_]+) ?\}\})` at the head of the list,
returning (whole match, name group) on success. -/
def matchVarAt : List Char → Option (String × String)
  | '$' :: '\x7b' :: '\x7b' :: t =>
    let (sp1, t1) := consumeSpace t
    match t1 with
    | c :: t2 =>
      if c.isAlpha then
        let body := t2.takeWhile isVarBodyChar
        let t3 := t2.dropWhile isVarBodyChar
        if body = [] then none
        else
          let (sp2, t4) := consumeSpace t3
          match t4 with
          | '\x7d' :: '\x7d' :: _ =>
            let name := String.mk (c :: body)
            some ("$\x7b\x7b" ++ sp1 ++ name ++ sp2 ++ "\x7d\x7d", name)
          | _ => none
      else none
    | [] => none
  | _ => none

/-- Scans for all regex matches.  A match always begins with `$` and
contains no further `$`, so advancing one character at a time finds
exactly the non-overlapping matches `re.findall` returns. -/
def variablesAux : List Char → List (String × String)
  | [] => []
  | c :: rest =>
    match matchVarAt (c :: rest) with
    | some (full, name) => (full, name) :: variablesAux rest
    | none => variablesAux rest

/-- Embedding of `variables_in_string(s, variable_name_only)`: the list
of `$` + double-brace variable tokens in `s`, either as full matched
text or as the bare variable names. -/
def variables_in_string (s : String) (variable_name_only : Bool) : List String :=
  if variable_name_only then (variablesAux s.toList).map (fun m => m.2)
  else (variablesAux s.toList).map (fun m => m.1)

/-- Embedding of `escape_braces`: double every brace so it survives a
`str.format` pass. -/
def escape_braces (unescaped_string : String) : String :=
  pyReplace (pyReplace unescaped_string "\x7b" "\x7b\x7b") "\x7d" "\x7d\x7d"

/-- Worker for `shlexSplit`: POSIX-mode `shlex` tokenizer state machine
(`mode` is the open quote character, `tok`/`hasTok` the token being
accumulated in reverse). -/
def shlexGo : List Char → Option Char → List Char → Bool → List String → Except PyErr (List String)
  | [], none, tok, hasTok, acc =>
    .ok (if hasTok then acc ++ [String.mk tok.reverse] else acc)
  | [], some _, _, _, _ => .error (.valueError "No closing quotation")
  | c :: rest, none, tok, hasTok, acc =>
    if c = ' ' ∨ c = '\t' ∨ c = '\r' ∨ c = '\n' then
      if hasTok then shlexGo rest none [] false (acc ++ [String.mk tok.reverse])
      else shlexGo rest none [] false acc
    else if c = '\x27' then shlexGo rest (some '\x27') tok true acc
    else if c = '"' then shlexGo rest (some '"') tok true acc
    else if c = '\\' then
      match rest with
      | [] => .error (.valueError "No escape character")
      | d :: rest' => shlexGo rest' none (d :: tok) true acc
    else shlexGo rest none (c :: tok) true acc
  | c :: rest, some q, tok, hasTok, acc =>
    if c = q then shlexGo rest none tok hasTok acc
    else if q = '"' ∧ c = '\\' then
      match rest with
      | [] => .error (.valueError "No closing quotation")
      | d :: rest' =>
        if d = '"' ∨ d = '\\' then shlexGo rest' (some q) (d :: tok) hasTok acc
        else shlexGo rest' (some q) (d :: '\\' :: tok) hasTok acc
    else shlexGo rest (some q) (c :: tok) hasTok acc

/-- Model of `shlex.split` in POSIX mode with whitespace splitting, as
used by `split_and_format_run_command`. -/
def shlexSplit (s : String) : Except PyErr (List String) :=
  shlexGo s.toList none [] false []

/-- Embedding of `split_and_format_run_command`: normalizes variable
tokens, escapes braces (once per variable found, as the source does),
shell-splits, and splits `token:version` (defaulting to `latest`). -/
def split_and_format_run_command (run_command : String) : Except PyErr (String × String × List String) :=
  let vars := variables_in_string run_command false
  let cmd := vars.foldl (fun s v => escape_braces (pyReplace s v (pyReplace v " " ""))) run_command
  match shlexSplit cmd with
  | .error e => .error e
  | .ok [] => .error .indexError
  | .ok (p0 :: rest) =>
    if p0.toList.contains ':' then
      match splitOnChar ':' p0.toList with
      | [a, b] => .ok (String.mk a, String.mk b, rest)
      | _ => .error (.valueError "too many values to unpack")
    else .ok (p0, "latest", rest)

/-- Model of `os.environ` as the job runner reads it: the two storage
roots and the `<DB>_DATABASE_URL` entries. -/
structure Environ where
  high_privacy_storage_base : Option String
  medium_privacy_storage_base : Option String
  database_urls : List (String × String)

/-- PRIVACY_LEVEL_HIGH from `runner/project.py`. -/
def PRIVACY_LEVEL_HIGH : Int := 3

/-- PRIVACY_LEVEL_MEDIUM from `runner/project.py`. -/
def PRIVACY_LEVEL_MEDIUM : Int := 4

/-- One entry of `RUN_COMMANDS_CONFIG` (the `docker_exception` class is
modelled by its name). -/
structure RunCommandInfo where
  input_privacy_level : Option Int
  output_privacy_level : Option Int
  docker_invocation : List String
  docker_exception : String

/-- The `cohortextractor` entry of `RUN_COMMANDS_CONFIG`. -/
def cohortextractorInfo : RunCommandInfo :=
  ⟨none, some PRIVACY_LEVEL_HIGH,
   ["docker.pkg.github.com/opensafely/cohort-extractor/cohort-extractor",
    "generate_cohort",
    "--database-url=\x7bdatabase_url\x7d",
    "--output-dir=/workspace"],
   "CohortExtractorError"⟩

/-- The `stata-mp` entry of `RUN_COMMANDS_CONFIG`. -/
def stataInfo : RunCommandInfo :=
  ⟨some PRIVACY_LEVEL_HIGH, some PRIVACY_LEVEL_MEDIUM,
   ["docker.pkg.github.com/opensafely/stata-docker/stata-mp"],
   "ScriptError"⟩

/-- Embedding of the `RUN_COMMANDS_CONFIG` registry dictionary. -/
def RUN_COMMANDS_CONFIG : List (String × RunCommandInfo) :=
  [("cohortextractor", cohortextractorInfo), ("stata-mp", stataInfo)]

/-- Embedding of `make_volume_name` from `runner/project.py`. -/
def make_volume_name (repo branch_or_tag db_flavour : String) : String :=
  let repo_name := String.mk ((urlparse_path repo).toList.drop 1)
  let repo_name :=
    if isPrefixList ['/'] repo_name.toList.reverse then String.mk repo_name.toList.dropLast
    else repo_name
  let repo_name :=
    match (splitOnChar '/' repo_name.toList).reverse with
    | last :: _ => String.mk last
    | [] => ""
  repo_name ++ "-" ++ branch_or_tag ++ "-" ++ db_flavour

/-- Embedding of `make_path` from `runner/project.py`.  The directory
creation side effect (`mkdir(parents=True, exist_ok=True)`) is dropped;
the returned path string is modelled exactly.  A missing environment
variable is a `KeyError` as in Python. -/
def make_path (env : Environ) (repo tag db : String) (privacy_level : Option Int) : Except PyErr String :=
  let volume_name := make_volume_name repo tag db
  if privacy_level = some PRIVACY_LEVEL_HIGH then
    match env.high_privacy_storage_base with
    | some base => .ok (pathDiv base volume_name)
    | none => .error (.keyError "HIGH_PRIVACY_STORAGE_BASE")
  else if privacy_level = some PRIVACY_LEVEL_MEDIUM then
    match env.medium_privacy_storage_base with
    | some base => .ok (pathDiv base volume_name)
    | none => .error (.keyError "MEDIUM_PRIVACY_STORAGE_BASE")
  else .error (.openSafelyError "Unsupported privacy level")

/-- Embedding of `make_container_name` from `runner/project.py`. -/
def make_container_name (volume_name : String) : String :=
  let s := volume_name.toList.map (fun c => if c.isAlphanum then c else '-')
  match s with
  | '-' :: rest => String.mk rest
  | _ => String.mk s

/-- One parsed action entry of `project.yaml`: its `run` string and the
optional `needs` list and `outputs` mapping (absent keys are modelled by
the empty list, which is observationally equivalent everywhere the
source reads them). -/
structure ActionConfig where
  run : String
  needs : List String
  outputs : List (String × PyVal)

/-- The job fields `parse_project_yaml` consumes (other queue fields are
passed through untouched). -/
structure Job where
  operation : String
  repo : String
  db : String
  tag : String

/-- An action dictionary after `add_runtime_metadata` has added
`action_id`, `database_url`, `output_path`, optional `input_path`,
`container_name`, `docker_invocation` and `docker_exception`. -/
structure ResolvedAction where
  config : ActionConfig
  action_id : String
  database_url : String
  output_path : String
  input_path : Option String
  container_name : String
  docker_invocation : List String
  docker_exception : String

/-- Dictionary-style lookup on a resolved action dict, as performed by
`dependency_action[outputs_key]` in `interpolate_variables`. -/
def ResolvedAction.getItem (a : ResolvedAction) (key : String) : Option PyVal :=
  if key = "run" then some (.str a.config.run)
  else if key = "needs" then some (.list (a.config.needs.map .str))
  else if key = "outputs" then some (.dict a.config.outputs)
  else if key = "action_id" then some (.str a.action_id)
  else if key = "database_url" then some (.str a.database_url)
  else if key = "output_path" then some (.str a.output_path)
  else if key = "input_path" then a.input_path.map .str
  else if key = "container_name" then some (.str a.container_name)
  else if key = "docker_invocation" then some (.list (a.docker_invocation.map .str))
  else if key = "docker_exception" then some (.str a.docker_exception)
  else none

/-- Worker for `pyFormat`: `acc = none` scans literal text (doubling
rules for braces), `acc = some field` accumulates a replacement-field
name (in reverse) until the closing brace, which is looked up in the
keyword map. -/
def formatGo : List Char → Option (List Char) → List (String × String) → Except PyErr (List Char)
  | [], none, _ => .ok []
  | [], some _, _ => .error (.valueError "Single brace encountered in format string")
  | c :: rest, some acc, m =>
    if c = '\x7d' then
      match List.lookup (String.mk acc.reverse) m with
      | some v =>
        match formatGo rest none m with
        | .error e => .error e
        | .ok t => .ok (v.toList ++ t)
      | none => .error (.keyError (String.mk acc.reverse))
    else if c = '\x7b' then .error (.valueError "unexpected brace in field name")
    else formatGo rest (some (c :: acc)) m
  | '\x7b' :: '\x7b' :: rest, none, m =>
    match formatGo rest none m with
    | .error e => .error e
    | .ok t => .ok ('\x7b' :: t)
  | '\x7d' :: '\x7d' :: rest, none, m =>
    match formatGo rest none m with
    | .error e => .error e
    | .ok t => .ok ('\x7d' :: t)
  | '\x7b' :: rest, none, m => formatGo rest (some []) m
  | '\x7d' :: _, none, _ => .error (.valueError "Single brace encountered in format string")
  | c :: rest, none, m =>
    match formatGo rest none m with
    | .error e => .error e
    | .ok t => .ok (c :: t)

/-- Model of Python `arg.format(**action)` restricted to plain `{name}`
replacement fields (the only form the embedded templates use); the map
holds the string-valued keys of the action dict. -/
def pyFormat (s : String) (m : List (String × String)) : Except PyErr String :=
  match formatGo s.toList none m with
  | .error e => .error e
  | .ok cs => .ok (String.mk cs)

/-- The string-valued keyword arguments `action` supplies to
`arg.format(**action)` inside `add_runtime_metadata`. -/
def runtimeFormatMap (action : ActionConfig) (action_id database_url output_path container_name : String)
    (input_path : Option String) : List (String × String) :=
  [("run", action.run), ("action_id", action_id), ("database_url", database_url),
   ("output_path", output_path), ("container_name", container_name)] ++
  (match input_path with
   | some p => [("input_path", p)]
   | none => [])

/-- Python-loop style `map` over `Except`, mirroring the accumulate-or-
raise loops of the source. -/
def exceptMapList (f : α → Except PyErr β) : List α → Except PyErr (List β)
  | [] => .ok []
  | x :: xs =>
    match f x with
    | .error e => .error e
    | .ok y =>
      match exceptMapList f xs with
      | .error e => .error e
      | .ok ys => .ok (y :: ys)

/-- The `docker_invocation[0] = docker_invocation[0] + ":" + version`
step of `add_runtime_metadata`, guarded by `if version:`. -/
def versionedInvocation (inv : List String) (version : String) : Except PyErr (List String) :=
  if version ≠ "" then
    match inv with
    | [] => .error .indexError
    | h :: t => .ok ((h ++ ":" ++ version) :: t)
  else .ok inv

/-- Tail of `add_runtime_metadata` once `output_path` and the optional
`input_path` are known: assembles mounts + invocation + args and formats
every element against the action's fields. -/
def finish_runtime_metadata (action : ActionConfig) (action_id database_url output_path : String)
    (input_path : Option String) (docker_invocation args : List String)
    (docker_exception : String) : Except PyErr ResolvedAction :=
  let container_name := make_container_name output_path
  let extra_mounts :=
    match input_path with
    | none => ["--volume", "\x7boutput_path\x7d:\x7boutput_path\x7d"]
    | some _ => ["--volume", "\x7boutput_path\x7d:\x7boutput_path\x7d",
                 "--volume", "\x7binput_path\x7d:\x7binput_path\x7d"]
  let inv := extra_mounts ++ docker_invocation ++ args
  let m := runtimeFormatMap action action_id database_url output_path container_name input_path
  match exceptMapList (fun a => pyFormat a m) inv with
  | .error e => .error e
  | .ok formatted =>
    .ok ⟨action, action_id, database_url, output_path, input_path, container_name,
         formatted, docker_exception⟩

/-- Embedding of `add_runtime_metadata` from `runner/project.py`;
`action_id` has already been written into the action dict by
`parse_project_yaml` and is passed alongside, and the `repo`/`db`/`tag`
keyword arguments come from the job. -/
def add_runtime_metadata (env : Environ) (action : ActionConfig) (action_id repo db tag : String) :
    Except PyErr ResolvedAction :=
  match split_and_format_run_command action.run with
  | .error e => .error e
  | .ok (name, version, args) =>
    match List.lookup name RUN_COMMANDS_CONFIG with
    | none => .error (.invalidRunInProjectFile name)
    | some info =>
      match List.lookup (pyUpper db ++ "_DATABASE_URL") env.database_urls with
      | none => .error (.keyError (pyUpper db ++ "_DATABASE_URL"))
      | some database_url =>
        match versionedInvocation info.docker_invocation version with
        | .error e => .error e
        | .ok docker_invocation =>
          match make_path env repo tag db info.output_privacy_level with
          | .error e => .error e
          | .ok output_path =>
            match info.input_privacy_level with
            | some l =>
              if l ≠ 0 then
                match make_path env repo tag db (some l) with
                | .error e => .error e
                | .ok input_path =>
                  finish_runtime_metadata action action_id database_url output_path
                    (some input_path) docker_invocation args info.docker_exception
              else
                finish_runtime_metadata action action_id database_url output_path
                  none docker_invocation args info.docker_exception
            | none =>
              finish_runtime_metadata action action_id database_url output_path
                none docker_invocation args info.docker_exception

/-- The per-variable validation loop of
`load_and_validate_project_actions` (lines "Check any variables are
supported"): the spaceless text must start with the literal
`$` + double-brace + `needs`, the full variable text must split on `.`
into exactly four parts, and the third part must be `outputs`; any
failure raises `InvalidVariableInProjectFile` for that variable. -/
def validateVars : List String → Except PyErr Unit
  | [] => .ok ()
  | v :: rest =>
    if ¬ isPrefixList ("$\x7b\x7bneeds".toList) ((pyReplace v " " "").toList) then
      .error (.invalidVariableInProjectFile v true)
    else
      match splitOnChar '.' v.toList with
      | [_, _, outputs_key, _] =>
        if String.mk outputs_key ≠ "outputs" then .error (.invalidVariableInProjectFile v true)
        else validateVars rest
      | _ => .error (.invalidVariableInProjectFile v true)

/-- The action-by-action loop of `load_and_validate_project_actions`,
threading the `seen_runs` signature list; returns the final signature
list on success. -/
def load_validate_aux : List (String × ActionConfig) → List String → Except PyErr (List String)
  | [], seen => .ok seen
  | (_aid, cfg) :: rest, seen =>
    match split_and_format_run_command cfg.run with
    | .error e => .error e
    | .ok (name, _version, args) =>
      if (List.lookup name RUN_COMMANDS_CONFIG).isNone then .error (.invalidRunInProjectFile name)
      else
        let run_signature := name ++ "_" ++ pyStrListRepr args
        if seen.contains run_signature then .error (.duplicateRunInProjectFile name args true)
        else
          match validateVars (variables_in_string cfg.run false) with
          | .error e => .error e
          | .ok () => load_validate_aux rest (seen ++ [run_signature])

/-- Embedding of `load_and_validate_project_actions`: the file read and
YAML parse are modelled by taking the parsed `actions` mapping as the
argument; on success the mapping is returned unchanged. -/
def load_and_validate_project_actions (project_actions : List (String × ActionConfig)) :
    Except PyErr (List (String × ActionConfig)) :=
  match load_validate_aux project_actions [] with
  | .error e => .error e
  | .ok _ => .ok project_actions

/-- The per-argument body of `interpolate_variables`' loop: if the
argument contains variables, the first one is split into four dotted
parts and resolved against the dependency map; `KeyError`/`ValueError`
during the lookups becomes `InvalidVariableInProjectFile`, a non-string
resolved value fails the `isinstance` assertion, and a successful lookup
replaces the whole argument by `os.path.join(output_path, filename)`. -/
def interpolateArg (dependency_actions : List (String × ResolvedAction)) (arg : String) :
    Except PyErr String :=
  match variables_in_string arg true with
  | [] => .ok arg
  | v :: _ =>
    let inner : Except PyErr (ResolvedAction × PyVal) :=
      match splitOnChar '.' v.toList with
      | [_, action_id, outputs_key, output_id] =>
        match List.lookup (String.mk action_id) dependency_actions with
        | none => .error (.keyError (String.mk action_id))
        | some dependency_action =>
          match dependency_action.getItem (String.mk outputs_key) with
          | none => .error (.keyError (String.mk outputs_key))
          | some dependency_outputs =>
            match dependency_outputs with
            | .dict d =>
              match List.lookup (String.mk output_id) d with
              | none => .error (.keyError (String.mk output_id))
              | some filename => .ok (dependency_action, filename)
            | .str _ => .error (.typeError "string indices must be integers")
            | .list _ => .error (.typeError "list indices must be integers or slices, not str")
            | .int _ => .error (.typeError "int object is not subscriptable")
      | _ => .error (.valueError "not enough values to unpack")
    match inner with
    | .error (.keyError _) =>
      .error (.invalidVariableInProjectFile ("No output corresponding to " ++ arg ++ " was found") true)
    | .error (.valueError _) =>
      .error (.invalidVariableInProjectFile ("No output corresponding to " ++ arg ++ " was found") true)
    | .error e => .error e
    | .ok (dependency_action, filename) =>
      match filename with
      | .str f => .ok (os_path_join dependency_action.output_path f)
      | other => .error (.assertionError ("Could not find a string value for " ++ pyValStr other))

/-- Embedding of `interpolate_variables` from `runner/project.py`. -/
def interpolate_variables (args : List String) (dependency_actions : List (String × ResolvedAction)) :
    Except PyErr (List String) :=
  exceptMapList (interpolateArg dependency_actions) args

/-- The output-by-output loop of `raise_if_unfinished`, checking each
declared output file for existence in the modelled filesystem `fs`. -/
def raise_go (fs : List String) (a : ResolvedAction) : List (String × PyVal) → Except PyErr Unit
  | [] => .ok ()
  | (_output_name, output_filename) :: rest =>
    match output_filename with
    | .str f =>
      let expected := os_path_join a.output_path f
      if fs.contains expected then raise_go fs a rest
      else .error (.dependencyNotFinished ("No output for " ++ a.action_id ++ " at " ++ expected) true)
    | _ => .error (.typeError "join with a non-string output filename")

/-- Embedding of `raise_if_unfinished` from `runner/project.py`; the
filesystem is the list `fs` of existing paths. -/
def raise_if_unfinished (fs : List String) (a : ResolvedAction) : Except PyErr Unit :=
  raise_go fs a a.config.outputs

/-- First-occurrence deduplication worker. -/
def dedupAux : List String → List String → List String
  | [], _ => []
  | x :: rest, seen =>
    if seen.contains x then dedupAux rest seen else x :: dedupAux rest (x :: seen)

/-- The predecessor list `graph.predecessors(requested_action_id)`
yields in `parse_project_yaml`: the requested action's `needs` list in
order, with duplicates removed (first occurrence kept), matching
networkx's insertion-ordered adjacency dict. -/
def dedupFirst (l : List String) : List String :=
  dedupAux l []

/-- The dependency loop of `parse_project_yaml`: look each predecessor
up in the project (an undefined id is an uncaught `KeyError`), add
runtime metadata, check it is finished, and collect the resolved map. -/
def processDeps (env : Environ) (fs : List String) (project_actions : List (String × ActionConfig))
    (repo db tag : String) : List String → Except PyErr (List (String × ResolvedAction))
  | [] => .ok []
  | d :: rest =>
    match List.lookup d project_actions with
    | none => .error (.keyError d)
    | some cfg =>
      match add_runtime_metadata env cfg d repo db tag with
      | .error e => .error e
      | .ok a =>
        match raise_if_unfinished fs a with
        | .error e => .error e
        | .ok () =>
          match processDeps env fs project_actions repo db tag rest with
          | .error e => .error e
          | .ok m => .ok ((d, a) :: m)

/-- Embedding of `parse_project_yaml` from `runner/project.py`: validate
the whole definition, check the requested operation exists, materialize
the requested action and its predecessors (completion-checking each
predecessor), then interpolate cross-action variables into the
requested action's invocation.  The returned job-merge is modelled by
returning the final resolved action. -/
def parse_project_yaml (env : Environ) (fs : List String)
    (project_actions : List (String × ActionConfig)) (job : Job) : Except PyErr ResolvedAction :=
  match load_validate_aux project_actions [] with
  | .error e => .error e
  | .ok _ =>
    match List.lookup job.operation project_actions with
    | none => .error (.operationNotInProjectFile job.operation)
    | some reqCfg =>
      match add_runtime_metadata env reqCfg job.operation job.repo job.db job.tag with
      | .error e => .error e
      | .ok job_action =>
        match processDeps env fs project_actions job.repo job.db job.tag (dedupFirst reqCfg.needs) with
        | .error e => .error e
        | .ok dependency_actions =>
          match interpolate_variables job_action.docker_invocation dependency_actions with
          | .error e => .error e
          | .ok final =>
            .ok ⟨job_action.config, job_action.action_id, job_action.database_url,
                 job_action.output_path, job_action.input_path, job_action.container_name,
                 final, job_action.docker_exception⟩

/-- The workspace dictionary consumed by `make_volume_name` in
`runner/utils.py`. -/
structure Workspace where
  repo : String
  branch : String
  db : String
  owner : String
  name : String

/-- The `re.sub(r"[^0-9a-z-]", "-", ...)` normalization of one
workspace field in `runner/utils.py`'s `make_volume_name`. -/
def utilsNormalizeField (s : String) : String :=
  String.mk (s.toList.map (fun c =>
    if ('0' ≤ c && c ≤ '9') || ('a' ≤ c && c ≤ 'z') || c = '-' then c else '-'))

/-- The `re.sub(r"--+", "-", ...)` hyphen deduplication: every maximal
run of hyphens collapses to one (the flag records whether the previous
input character was a hyphen). -/
def collapseHyphensAux : Bool → List Char → List Char
  | _, [] => []
  | prevHyphen, c :: rest =>
    if c = '-' then
      if prevHyphen then collapseHyphensAux true rest
      else '-' :: collapseHyphensAux true rest
    else c :: collapseHyphensAux false rest

/-- Hyphen-run collapser entry point. -/
def collapseHyphens (s : String) : String :=
  String.mk (collapseHyphensAux false s.toList)

/-- Embedding of `make_volume_name` from `runner/utils.py`. -/
def utils_make_volume_name (w : Workspace) : String :=
  collapseHyphens (strIntercalate "-"
    [utilsNormalizeField w.repo, utilsNormalizeField w.branch, utilsNormalizeField w.db,
     utilsNormalizeField w.owner, utilsNormalizeField w.name])

/-- Embedding of `safe_join` from `runner/utils.py`: normalize the
join, then assert that `os.path.commonprefix` of the result and the
start directory equals the start directory (a string comparison). -/
def safe_join (startdir path : String) : Except PyErr String :=
  let requested_path := normpath (os_path_join startdir path)
  if commonprefixPy requested_path startdir = startdir then .ok requested_path
  else .error (.assertionError ("Invalid requested path " ++ requested_path ++ ", not in " ++ startdir))

/-- Embedding of `make_output_path` from `runner/utils.py`.  The
function binds `storage_base` only for the two recognized privacy
levels; any other value leaves it unbound and the following use raises
`UnboundLocalError`.  Directory creation is dropped as in `make_path`. -/
def make_output_path (env : Environ) (action_workspace : Workspace) (privacy_level filename : String) :
    Except PyErr String :=
  let volume_name := utils_make_volume_name action_workspace
  let storage_base : Except PyErr String :=
    if privacy_level = "highly_sensitive" then
      match env.high_privacy_storage_base with
      | some base => .ok base
      | none => .error (.keyError "HIGH_PRIVACY_STORAGE_BASE")
    else if privacy_level = "moderately_sensitive" then
      match env.medium_privacy_storage_base with
      | some base => .ok base
      | none => .error (.keyError "MEDIUM_PRIVACY_STORAGE_BASE")
    else .error (.unboundLocalError "storage_base")
  match storage_base with
  | .error e => .error e
  | .ok base =>
    let output_bucket := pathDiv base volume_name
    safe_join output_bucket filename

/-- Modelled from the spec: the `OpenSafelyError` base class of
`runner/exceptions.py` is not under `src/` (only its test is).  Per the
spec's error-handling design, every error kind carries a `report_args`
flag fixed at construction; `safe_details()` includes the constructor
message only with that opt-in and otherwise yields the kind's name
followed by a fixed redaction placeholder. -/
structure OpenSafelyError where
  kind_name : String
  message : String
  report_args : Bool

/-- Modelled from the spec: `safe_details()` of an `OpenSafelyError`. -/
def safe_details (e : OpenSafelyError) : String :=
  if e.report_args then e.kind_name ++ ": " ++ e.message
  else e.kind_name ++ ": [possibly-unsafe details redacted]"

/-- A list is a prefix of itself followed by anything. -/
lemma isPrefixList_append_self (l t : List Char) : isPrefixList l (l ++ t) = true := by
  induction l with
  | nil => rfl
  | cons c cs ih => simp [isPrefixList, ih]

/-- String concatenation is associative. -/
lemma strAppend_assoc (a b c : String) : a ++ b ++ c = a ++ (b ++ c) :=
  congrArg String.mk (List.append_assoc a.data b.data c.data)

/-- Joining two non-empty lists inserts the separator once between the
two joined halves. -/
lemma strIntercalate_append (s : String) (l1 l2 : List String) (h1 : l1 ≠ []) (h2 : l2 ≠ []) :
    strIntercalate s (l1 ++ l2) = strIntercalate s l1 ++ s ++ strIntercalate s l2 := by
  induction l1 with
  | nil => exact absurd rfl h1
  | cons x rest ih =>
    cases rest with
    | nil =>
      cases l2 with
      | nil => exact absurd rfl h2
      | cons y ys =>
        have e1 : strIntercalate s ([x] ++ y :: ys) = x ++ s ++ strIntercalate s (y :: ys) := rfl
        rw [e1]
        rfl
    | cons x2 rest2 =>
      have h := ih (by simp)
      have e1 : strIntercalate s ((x :: x2 :: rest2) ++ l2) =
          x ++ s ++ strIntercalate s ((x2 :: rest2) ++ l2) := rfl
      have e2 : strIntercalate s (x :: x2 :: rest2) = x ++ s ++ strIntercalate s (x2 :: rest2) := rfl
      rw [e1, e2, h, strAppend_assoc (x ++ s), strAppend_assoc (x ++ s)]

/-- If the character-wise common prefix of `a` and `b` is all of `b`,
then `b` is a prefix of `a`. -/
lemma commonPfxList_full : ∀ (b a : List Char), commonPfxList a b = b → isPrefixList b a = true := by
  intro b
  induction b with
  | nil => intro a _; rfl
  | cons x bs ih =>
    intro a h
    cases a with
    | nil => simp [commonPfxList] at h
    | cons y as_ =>
      by_cases hxy : y = x
      · subst hxy
        simp only [commonPfxList, if_pos rfl] at h
        have htail : commonPfxList as_ bs = bs := by
          injection h with h1 h2
        simp [isPrefixList, ih as_ htail]
      · simp only [commonPfxList, if_neg hxy] at h
        simp at h

/-- `safe_join` only ever returns strings that extend `startdir`
character-wise. -/
lemma safe_join_ok_isPrefix (startdir path r : String) (h : safe_join startdir path = .ok r) :
    isPrefixList startdir.toList r.toList = true := by
  simp only [safe_join] at h
  split at h
  · next hc =>
    injection h with h
    subst h
    have hdata := congrArg String.data hc
    exact commonPfxList_full _ _ hdata
  · cases h

/-- A resolved action produced by `finish_runtime_metadata` records the
`action_id` it was given. -/
lemma finish_runtime_metadata_action_id {action : ActionConfig} {i d p : String}
    {inp : Option String} {inv args : List String} {exc : String} {a : ResolvedAction}
    (h : finish_runtime_metadata action i d p inp inv args exc = .ok a) : a.action_id = i := by
  simp only [finish_runtime_metadata] at h
  split at h
  · cases h
  · injection h with h
    subst h
    rfl

/-- A resolved action produced by `add_runtime_metadata` records the
`action_id` it was given. -/
lemma add_runtime_metadata_action_id {env : Environ} {c : ActionConfig} {i r db t : String}
    {a : ResolvedAction} (h : add_runtime_metadata env c i r db t = .ok a) : a.action_id = i := by
  simp only [add_runtime_metadata] at h
  split at h
  · cases h
  split at h
  · cases h
  split at h
  · cases h
  split at h
  · cases h
  split at h
  · cases h
  split at h
  · split at h
    · split at h
      · cases h
      · exact finish_runtime_metadata_action_id h
    · exact finish_runtime_metadata_action_id h
  · exact finish_runtime_metadata_action_id h

/-- Validation of a concatenated action list processes the first part
first and, if it succeeds, continues on the second part with the
accumulated signature list. -/
lemma load_validate_aux_append (l1 l2 : List (String × ActionConfig)) (seen : List String) :
    load_validate_aux (l1 ++ l2) seen =
      match load_validate_aux l1 seen with
      | .error e => .error e
      | .ok s => load_validate_aux l2 s := by
  induction l1 generalizing seen with
  | nil => simp [load_validate_aux]
  | cons hd tl ih =>
    obtain ⟨aid, cfg⟩ := hd
    simp only [List.cons_append, load_validate_aux]
    split
    · rfl
    · split
      · rfl
      · split
        · rfl
        · split
          · rfl
          · exact ih _

/-- If every dependency in a leading block of the predecessor list
resolves and checks out, an error from the remaining dependencies is
the error of the whole loop. -/
lemma processDeps_append_error (env : Environ) (fs : List String)
    (project : List (String × ActionConfig)) (repo db tag : String)
    (pre rest : List String) (e : PyErr)
    (hpre : ∀ d ∈ pre, ∃ c a, List.lookup d project = some c ∧
      add_runtime_metadata env c d repo db tag = .ok a ∧ raise_if_unfinished fs a = .ok ())
    (hrest : processDeps env fs project repo db tag rest = .error e) :
    processDeps env fs project repo db tag (pre ++ rest) = .error e := by
  induction pre with
  | nil => simpa using hrest
  | cons d ds ih =>
    obtain ⟨c, a, hc, ha, hr⟩ := hpre d (by simp)
    have ihres := ih (fun d' hd' => hpre d' (by simp [hd']))
    simp only [List.cons_append, processDeps, hc, ha, hr]
    simp only [List.append_eq]
    rw [ihres]

/-- The completion check fails at the first declared output missing from
the filesystem, naming the action and the joined expected path. -/
lemma raise_go_first_missing (fs : List String) (a : ResolvedAction)
    (opre opost : List (String × PyVal)) (oname fname : String)
    (hpre : ∀ p ∈ opre, ∃ n f, p = (n, PyVal.str f) ∧
      fs.contains (os_path_join a.output_path f) = true)
    (hmiss : fs.contains (os_path_join a.output_path fname) = false) :
    raise_go fs a (opre ++ (oname, PyVal.str fname) :: opost) =
      .error (.dependencyNotFinished
        ("No output for " ++ a.action_id ++ " at " ++ os_path_join a.output_path fname) true) := by
  induction opre with
  | nil =>
    simp only [List.nil_append, raise_go]
    rw [hmiss]
    simp
  | cons p ps ih =>
    obtain ⟨n, f, hp, hf⟩ := hpre p (by simp)
    subst hp
    have ihres := ih (fun p' hp' => hpre p' (by simp [hp']))
    simp only [List.cons_append, raise_go]
    rw [hf]
    simpa using ihres

/-- Every list is a prefix of itself. -/
lemma isPrefixList_refl (l : List Char) : isPrefixList l l = true := by
  simpa using isPrefixList_append_self l []

/-- Prefixing both sides with the same list preserves the prefix
relation. -/
lemma isPrefixList_append_both (c l1 l2 : List Char) (h : isPrefixList l1 l2 = true) :
    isPrefixList (c ++ l1) (c ++ l2) = true := by
  induction c with
  | nil => simpa using h
  | cons x xs ih => simp [isPrefixList, ih]

/-- A string extends character-wise to any of its append-extensions. -/
lemma strPrefix_append (s t : String) : isPrefixList s.toList (s ++ t).toList = true := by
  have h := isPrefixList_append_self s.data t.data
  simpa [String.data_append] using h

/-- The environment the repository's tests run with (storage bases and
the `full` database URL of `conftest`/`mock_env`). -/
def testEnv : Environ :=
  ⟨some "/tmp/storage/highsecurity", some "/tmp/storage/mediumsecurity",
   [("FULL_DATABASE_URL", "sqlite:///test.db")]⟩

/-- A minimal environment over `/mnt` roots for the utils-level
path claims. -/
def envMnt : Environ := ⟨some "/mnt/high", some "/mnt/medium", []⟩

/-- A workspace whose normalized volume name is `r-b-d-o-n`. -/
def wsSimple : Workspace := ⟨"r", "b", "d", "o", "n"⟩

/-- C9: redaction without the `report_args` opt-in.  Since
`runner/exceptions.py` is not under `src/`, `safe_details` is modelled
from the spec and from `test_exception_reporting`. -/
theorem c9_redaction_independent_of_args (kind a1 a2 : String) :
    safe_details ⟨kind, a1, false⟩ = kind ++ ": [possibly-unsafe details redacted]" ∧
    safe_details ⟨kind, a1, false⟩ = safe_details ⟨kind, a2, false⟩ :=
  ⟨rfl, rfl⟩

/-- C9 witness: the redacted message of the test's `TestError` matches
the fixed placeholder whatever the constructor argument was. -/
theorem c9_witness :
    safe_details ⟨"TestError", "thing not to leak", false⟩ =
      "TestError: [possibly-unsafe details redacted]" ∧
    safe_details ⟨"TestError", "thing not to leak", false⟩ =
      safe_details ⟨"TestError", "different secret", false⟩ :=
  c9_redaction_independent_of_args "TestError" "thing not to leak" "different secret"

/-- A project whose only action's run string carries a variable whose
first dotted component is `needsX`, not `needs`. -/
def needsXProject : List (String × ActionConfig) :=
  [("a", ⟨"cohortextractor gen $\x7b\x7b needsX.x.outputs.y \x7d\x7d", [], []⟩)]

/-- C5 counterexample: a variable whose first dotted component is
`needsX` (not exactly `needs`) passes whole-file validation without any
`InvalidVariableInProjectFile`, because the source only checks
`startswith("$" + "{{needs")` on the spaceless text. -/
theorem c5_counterexample :
    load_and_validate_project_actions needsXProject = .ok needsXProject ∧
    variables_in_string "cohortextractor gen $\x7b\x7b needsX.x.outputs.y \x7d\x7d" true =
      ["needsX.x.outputs.y"] :=
  ⟨rfl, rfl⟩

/-- The amended C5 acceptance condition, read off the code: the
spaceless variable text must start with the literal `$` + `{{needs`
(a PREFIX test, so `needsX` passes), the full variable text must split
on dots into exactly four parts, and the third part must equal
`outputs`. -/
def acceptedVariable (v : String) : Prop :=
  isPrefixList ("$\x7b\x7bneeds".toList) ((pyReplace v " " "").toList) = true ∧
  (splitOnChar '.' v.toList).length = 4 ∧
  ((splitOnChar '.' v.toList).map String.mk).get? 2 = some "outputs"

instance (v : String) : Decidable (acceptedVariable v) := by
  unfold acceptedVariable
  infer_instance

/-- The variable-validation loop acts on one variable exactly as the
`acceptedVariable` condition prescribes. -/
lemma validateVars_cons (v : String) (rest : List String) :
    validateVars (v :: rest) =
      if acceptedVariable v then validateVars rest
      else .error (.invalidVariableInProjectFile v true) := by
  by_cases hA : isPrefixList ("$\x7b\x7bneeds".toList) ((pyReplace v " " "").toList) = true
  · have h1 : ¬ ¬ (isPrefixList ("$\x7b\x7bneeds".toList) ((pyReplace v " " "").toList) = true) :=
      fun h => h hA
    unfold validateVars
    rw [if_neg h1]
    rcases heq : splitOnChar '.' v.toList with _ | ⟨p1, l1⟩
    · have hacc : ¬ acceptedVariable v := by
        intro h
        have := h.2.1
        rw [heq] at this
        simp at this
      rw [if_neg hacc]
    rcases l1 with _ | ⟨p2, l2⟩
    · have hacc : ¬ acceptedVariable v := by
        intro h
        have := h.2.1
        rw [heq] at this
        simp at this
      rw [if_neg hacc]
    rcases l2 with _ | ⟨p3, l3⟩
    · have hacc : ¬ acceptedVariable v := by
        intro h
        have := h.2.1
        rw [heq] at this
        simp at this
      rw [if_neg hacc]
    rcases l3 with _ | ⟨p4, l4⟩
    · have hacc : ¬ acceptedVariable v := by
        intro h
        have := h.2.1
        rw [heq] at this
        simp at this
      rw [if_neg hacc]
    rcases l4 with _ | ⟨p5, l5⟩
    · by_cases hc : String.mk p3 = "outputs"
      · have hacc : acceptedVariable v := by
          refine ⟨hA, ?_, ?_⟩
          · rw [heq]
            rfl
          · rw [heq]
            simp [hc]
        rw [if_pos hacc]
        change (if String.mk p3 ≠ "outputs" then
          Except.error (PyErr.invalidVariableInProjectFile v true) else validateVars rest) = _
        rw [if_neg (not_not_intro hc)]
        exact validateVars.eq_def rest
      · have hacc : ¬ acceptedVariable v := by
          intro h
          have := h.2.2
          rw [heq] at this
          simp at this
          exact hc this
        rw [if_neg hacc]
        change (if String.mk p3 ≠ "outputs" then
          Except.error (PyErr.invalidVariableInProjectFile v true) else validateVars rest) = _
        rw [if_pos hc]
    · have hacc : ¬ acceptedVariable v := by
        intro h
        have := h.2.1
        rw [heq] at this
        simp at this
      rw [if_neg hacc]
  · have hacc : ¬ acceptedVariable v := fun h => hA h.1
    unfold validateVars
    rw [if_pos hA, if_neg hacc]

/-- C5 amended: whole-file validation accepts a variable iff the
spaceless text starts with the `needs` PREFIX, it has exactly four
dotted components, and the third is `outputs`; the first failing
variable raises `InvalidVariableInProjectFile` on itself.  (The claim's
"first component exactly `needs`" is refuted by `c5_counterexample`.) -/
theorem c5_amended_variable_validation :
    (∀ vs : List String, (∀ v ∈ vs, acceptedVariable v) → validateVars vs = .ok ()) ∧
    (∀ (pre : List String) (v : String) (rest : List String),
      (∀ u ∈ pre, acceptedVariable u) → ¬ acceptedVariable v →
      validateVars (pre ++ v :: rest) = .error (.invalidVariableInProjectFile v true)) := by
  constructor
  · intro vs h
    induction vs with
    | nil => rfl
    | cons v rest ih =>
      rw [validateVars_cons, if_pos (h v (by simp))]
      exact ih (fun u hu => h u (by simp [hu]))
  · intro pre v rest hpre hbad
    induction pre with
    | nil =>
      rw [List.nil_append, validateVars_cons, if_neg hbad]
    | cons u us ih =>
      rw [List.cons_append, validateVars_cons, if_pos (hpre u (by simp))]
      exact ih (fun u' hu' => hpre u' (by simp [hu']))

/-- C5 witness: a well-formed `needs` variable passes and a variable
with first component `foo` is rejected naming the variable itself. -/
theorem c5_witness :
    validateVars ["$\x7b\x7b needs.a.outputs.b \x7d\x7d"] = .ok () ∧
    validateVars ["$\x7b\x7bfoo.a.outputs.b\x7d\x7d"] =
      .error (.invalidVariableInProjectFile "$\x7b\x7bfoo.a.outputs.b\x7d\x7d" true) :=
  ⟨c5_amended_variable_validation.1 _ (by decide),
   c5_amended_variable_validation.2 [] _ [] (by decide) (by decide)⟩

/-- A resolved dependency whose declared output `x` maps to an empty
dict rather than a filename string. -/
def depNonStringOutput : ResolvedAction :=
  ⟨⟨"stata-mp run.do", [], [("x", .dict [])]⟩, "a", "db", "/out", none, "cn", [], "ScriptError"⟩

/-- C2 counterexample: when the looked-up output value is not a plain
string, interpolation raises the `isinstance` ASSERTION
(`AssertionError`), not `InvalidVariableInProjectFile` as the claim
states. -/
theorem c2_counterexample :
    interpolate_variables ["$\x7b\x7bneeds.a.outputs.x\x7d\x7d"] [("a", depNonStringOutput)] =
      .error (.assertionError "Could not find a string value for \x7b\x7d") :=
  rfl

/-- Looking the key `outputs` up in a resolved action dict yields the
declared outputs mapping. -/
lemma getItem_outputs (a : ResolvedAction) : a.getItem "outputs" = some (.dict a.config.outputs) :=
  rfl

/-- C2 amended: for an argument whose first variable reads
`needs.X.outputs.Y`, a missing dependency `X` or a missing output `Y`
raises `InvalidVariableInProjectFile`, but a non-string resolved value
fails the `isinstance` assertion (`AssertionError`) rather than raising
`InvalidVariableInProjectFile`; and the first failing argument's error
is the error of the whole interpolation. -/
theorem c2_amended_interpolation_errors :
    (∀ (deps : List (String × ResolvedAction)) (arg v : String) (X Y : String) (tl : List String),
      variables_in_string arg true = v :: tl →
      (splitOnChar '.' v.toList).map String.mk = ["needs", X, "outputs", Y] →
      List.lookup X deps = none →
      interpolateArg deps arg =
        .error (.invalidVariableInProjectFile
          ("No output corresponding to " ++ arg ++ " was found") true)) ∧
    (∀ (deps : List (String × ResolvedAction)) (arg v : String) (X Y : String) (tl : List String)
      (depAct : ResolvedAction),
      variables_in_string arg true = v :: tl →
      (splitOnChar '.' v.toList).map String.mk = ["needs", X, "outputs", Y] →
      List.lookup X deps = some depAct →
      List.lookup Y depAct.config.outputs = none →
      interpolateArg deps arg =
        .error (.invalidVariableInProjectFile
          ("No output corresponding to " ++ arg ++ " was found") true)) ∧
    (∀ (deps : List (String × ResolvedAction)) (arg v : String) (X Y : String) (tl : List String)
      (depAct : ResolvedAction) (val : PyVal),
      variables_in_string arg true = v :: tl →
      (splitOnChar '.' v.toList).map String.mk = ["needs", X, "outputs", Y] →
      List.lookup X deps = some depAct →
      List.lookup Y depAct.config.outputs = some val →
      (∀ s, val ≠ .str s) →
      interpolateArg deps arg =
        .error (.assertionError ("Could not find a string value for " ++ pyValStr val))) ∧
    (∀ (deps : List (String × ResolvedAction)) (pre : List String) (arg : String)
      (post : List String) (e : PyErr),
      (∀ a ∈ pre, ∃ o, interpolateArg deps a = .ok o) →
      interpolateArg deps arg = .error e →
      interpolate_variables (pre ++ arg :: post) deps = .error e) := by
  have hsplit : ∀ (v X Y : String),
      (splitOnChar '.' v.toList).map String.mk = ["needs", X, "outputs", Y] →
      ∃ a b c d, splitOnChar '.' v.toList = [a, b, c, d] ∧
        String.mk a = "needs" ∧ String.mk b = X ∧ String.mk c = "outputs" ∧ String.mk d = Y := by
    intro v X Y h
    rcases e : splitOnChar '.' v.toList with _ | ⟨a, _ | ⟨b, _ | ⟨c, _ | ⟨d, _ | ⟨x, tl⟩⟩⟩⟩⟩ <;>
      rw [e] at h <;> simp at h
    exact ⟨a, b, c, d, rfl, h.1, h.2.1, h.2.2.1, h.2.2.2⟩
  refine ⟨?_, ?_, ?_, ?_⟩
  · intro deps arg v X Y tl hv hsp hX
    obtain ⟨a, b, c, d, he, ha, hb, hc, hd⟩ := hsplit v X Y hsp
    simp only [interpolateArg, hv, he, hb, hX]
  · intro deps arg v X Y tl depAct hv hsp hX hY
    obtain ⟨a, b, c, d, he, ha, hb, hc, hd⟩ := hsplit v X Y hsp
    simp only [interpolateArg, hv, he, hb, hX, hc, getItem_outputs, hd, hY]
  · intro deps arg v X Y tl depAct val hv hsp hX hY hval
    obtain ⟨a, b, c, d, he, ha, hb, hc, hd⟩ := hsplit v X Y hsp
    rcases val with s | n | xs | d'
    · exact absurd rfl (hval s)
    · simp only [interpolateArg, hv, he, hb, hX, hc, getItem_outputs, hd, hY]
    · simp only [interpolateArg, hv, he, hb, hX, hc, getItem_outputs, hd, hY]
    · simp only [interpolateArg, hv, he, hb, hX, hc, getItem_outputs, hd, hY]
  · intro deps pre arg post e hpre herr
    induction pre with
    | nil =>
      simp only [List.nil_append, interpolate_variables, exceptMapList, herr]
    | cons a as ih =>
      obtain ⟨o, ho⟩ := hpre a (by simp)
      have ihres := ih (fun a' ha' => hpre a' (by simp [ha']))
      simp only [interpolate_variables, List.cons_append, exceptMapList, ho,
        List.append_eq] at ihres ⊢
      rw [ihres]

/-- C2 witness: an argument referencing a dependency absent from an
empty dependency map fails with `InvalidVariableInProjectFile`. -/
theorem c2_witness :
    interpolateArg [] "$\x7b\x7bneeds.a.outputs.x\x7d\x7d" =
      .error (.invalidVariableInProjectFile
        "No output corresponding to $\x7b\x7bneeds.a.outputs.x\x7d\x7d was found" true) :=
  c2_amended_interpolation_errors.1 [] "$\x7b\x7bneeds.a.outputs.x\x7d\x7d"
    "needs.a.outputs.x" "a" "x" [] rfl rfl rfl

/-- Appending the empty string is the identity. -/
lemma strAppend_empty (s : String) : s ++ "" = s :=
  congrArg String.mk (List.append_nil s.data)

/-- C10 counterexample: `safe_join`'s `commonprefix` check is a string
comparison, so a filename climbing into a SIBLING directory whose name
extends the bucket's (`r-b-d-o-n` versus `r-b-d-o-n-evil`) passes the
assertion and `make_output_path` returns a path outside the bucket. -/
theorem c10_counterexample :
    make_output_path envMnt wsSimple "highly_sensitive" "../r-b-d-o-n-evil/x.csv" =
      .ok "/mnt/high/r-b-d-o-n-evil/x.csv" ∧
    isPrefixList ("/mnt/high/r-b-d-o-n/".toList) ("/mnt/high/r-b-d-o-n-evil/x.csv".toList) = false ∧
    ("/mnt/high/r-b-d-o-n-evil/x.csv" : String) ≠ "/mnt/high/r-b-d-o-n" :=
  ⟨rfl, rfl, by decide⟩

/-- C10 amended: every path `make_output_path` returns extends the
bucket as a STRING prefix (the guarantee `safe_join`'s assertion
actually enforces); directory containment beyond that string prefix can
fail, as `c10_counterexample` shows. -/
theorem c10_amended_bucket_string_prefix (env : Environ) (w : Workspace) (filename r base : String)
    (hbase : env.high_privacy_storage_base = some base)
    (hok : make_output_path env w "highly_sensitive" filename = .ok r) :
    isPrefixList (pathDiv base (utils_make_volume_name w)).toList r.toList = true := by
  unfold make_output_path at hok
  rw [if_pos rfl, hbase] at hok
  exact safe_join_ok_isPrefix _ _ _ hok

/-- C10 witness: a benign filename lands under the bucket. -/
theorem c10_witness :
    isPrefixList ("/mnt/high/r-b-d-o-n".toList) ("/mnt/high/r-b-d-o-n/out.csv".toList) = true :=
  c10_amended_bucket_string_prefix envMnt wsSimple "out.csv" "/mnt/high/r-b-d-o-n/out.csv"
    "/mnt/high" rfl rfl

/-- C8 counterexample: an unrecognized privacy tier makes
`make_output_path` crash with `UnboundLocalError` (`storage_base` is
never assigned), which is not the unsupported-privacy error the claim
names. -/
theorem c8_counterexample :
    make_output_path envMnt wsSimple "secret" "f.csv" = .error (.unboundLocalError "storage_base") ∧
    (PyErr.unboundLocalError "storage_base" ≠ .openSafelyError "Unsupported privacy level") :=
  ⟨rfl, by decide⟩

/-- C8 amended: `make_path` raises the unsupported-privacy
`OpenSafelyError` exactly on unrecognized integer tiers and returns the
tier's root joined with the volume name on the two recognized ones
(that result extends the normalized root, fourth conjunct);
`make_output_path` handles only the two recognized string tiers,
crashes with `UnboundLocalError` on any other value, and on recognized
tiers fails only with `safe_join`'s `AssertionError`. -/
theorem c8_amended_privacy_tier_errors :
    (∀ (env : Environ) (repo tag db : String) (pl : Option Int),
      pl ≠ some PRIVACY_LEVEL_HIGH → pl ≠ some PRIVACY_LEVEL_MEDIUM →
      make_path env repo tag db pl = .error (.openSafelyError "Unsupported privacy level")) ∧
    (∀ (env : Environ) (repo tag db base : String),
      env.high_privacy_storage_base = some base →
      make_path env repo tag db (some PRIVACY_LEVEL_HIGH) =
        .ok (pathDiv base (make_volume_name repo tag db))) ∧
    (∀ (env : Environ) (repo tag db base : String),
      env.medium_privacy_storage_base = some base →
      make_path env repo tag db (some PRIVACY_LEVEL_MEDIUM) =
        .ok (pathDiv base (make_volume_name repo tag db))) ∧
    (∀ a b : String, (pposixRoot a ≠ "" ∨ pposixParts a ≠ []) → pposixRoot b = "" →
      isPrefixList (purePathStr a).toList (pathDiv a b).toList = true) ∧
    (∀ (env : Environ) (w : Workspace) (f pl : String),
      pl ≠ "highly_sensitive" → pl ≠ "moderately_sensitive" →
      make_output_path env w pl f = .error (.unboundLocalError "storage_base")) ∧
    (∀ (env : Environ) (w : Workspace) (f base : String) (e : PyErr),
      env.high_privacy_storage_base = some base →
      make_output_path env w "highly_sensitive" f = .error e → ∃ m, e = .assertionError m) ∧
    (∀ (env : Environ) (w : Workspace) (f base : String) (e : PyErr),
      env.medium_privacy_storage_base = some base →
      make_output_path env w "moderately_sensitive" f = .error e → ∃ m, e = .assertionError m) := by
  refine ⟨?_, ?_, ?_, ?_, ?_, ?_, ?_⟩
  · intro env repo tag db pl h1 h2
    unfold make_path
    rw [if_neg h1, if_neg h2]
  · intro env repo tag db base hbase
    unfold make_path
    rw [if_pos rfl, hbase]
  · intro env repo tag db base hbase
    unfold make_path
    rw [if_neg (by decide), if_pos rfl, hbase]
  · intro a b ha hb
    have hb' : ¬ (pposixRoot b ≠ "") := fun h => h hb
    unfold pathDiv purePathStr
    rw [if_neg hb']
    rcases hpb : pposixParts b with _ | ⟨x, xs⟩
    · simp only [List.append_nil]
      exact isPrefixList_refl _
    · rcases hpa : pposixParts a with _ | ⟨y, ys⟩
      · have hroot : pposixRoot a ≠ "" := by
          rcases ha with h | h
          · exact h
          · exact absurd hpa h
        rw [if_neg (fun h => hroot h.1), if_neg (fun h => hroot h.1)]
        have e1 : strIntercalate "/" ([] : List String) = "" := rfl
        rw [List.nil_append, e1, strAppend_empty]
        exact strPrefix_append _ _
      · rw [if_neg (fun h => by simpa using h.2), if_neg (fun h => by simpa using h.2)]
        rw [strIntercalate_append "/" (y :: ys) (x :: xs) (by simp) (by simp)]
        rw [← strAppend_assoc (pposixRoot a) (strIntercalate "/" (y :: ys) ++ "/")
          (strIntercalate "/" (x :: xs))]
        rw [← strAppend_assoc (pposixRoot a) (strIntercalate "/" (y :: ys)) "/"]
        rw [strAppend_assoc (pposixRoot a ++ strIntercalate "/" (y :: ys)) "/"
          (strIntercalate "/" (x :: xs))]
        exact strPrefix_append _ _
  · intro env w f pl h1 h2
    unfold make_output_path
    rw [if_neg h1, if_neg h2]
  · intro env w f base e hbase herr
    unfold make_output_path at herr
    rw [if_pos rfl, hbase] at herr
    simp only [safe_join] at herr
    split at herr
    · cases herr
    · injection herr with h
      exact ⟨_, h.symm⟩
  · intro env w f base e hbase herr
    unfold make_output_path at herr
    rw [if_neg (by decide), if_pos rfl, hbase] at herr
    simp only [safe_join] at herr
    split at herr
    · cases herr
    · injection herr with h
      exact ⟨_, h.symm⟩

/-- C8 witness: a concrete unrecognized integer tier errors, the high
tier resolves under `/mnt/high`, an unrecognized string tier crashes
`make_output_path`, and the resolved path extends the root. -/
theorem c8_witness :
    make_path envMnt "r" "t" "full" (some 9) =
      .error (.openSafelyError "Unsupported privacy level") ∧
    make_path envMnt "https://github.com/repo" "master" "full" (some PRIVACY_LEVEL_HIGH) =
      .ok "/mnt/high/repo-master-full" ∧
    make_output_path envMnt wsSimple "foo" "f.csv" = .error (.unboundLocalError "storage_base") ∧
    isPrefixList ("/mnt/high".toList) ("/mnt/high/repo-master-full".toList) = true :=
  ⟨c8_amended_privacy_tier_errors.1 envMnt "r" "t" "full" (some 9) (by decide) (by decide),
   c8_amended_privacy_tier_errors.2.1 envMnt "https://github.com/repo" "master" "full"
     "/mnt/high" rfl,
   c8_amended_privacy_tier_errors.2.2.2.2.1 envMnt wsSimple "f.csv" "foo"
     (by decide) (by decide),
   c8_amended_privacy_tier_errors.2.2.2.1 "/mnt/high" "repo-master-full"
     (Or.inl (by decide)) (by decide)⟩

/-- The job used by the resolution claims: `run_model` on the test
repo/tag/db. -/
def jobRunModel : Job := ⟨"run_model", "https://github.com/repo", "full", "master"⟩

/-- A project whose requested action's run command holds TWO variable
references. -/
def projTwoVars : List (String × ActionConfig) :=
  [("run_model",
    ⟨"stata-mp $\x7b\x7b needs.a.outputs.x \x7d\x7d $\x7b\x7b needs.b.outputs.y \x7d\x7d", [], []⟩)]

/-- C1: with two variables in one run command, `escape_braces` runs once
per variable inside the loop of `split_and_format_run_command`, so the
braces are doubled twice but `format()` halves them only once: the
returned `docker_invocation` still contains the brace-escaped variable
`$` + 4 braces + `needs.a.outputs.x` + 4 braces, plus stray tokens from
the second variable whose spaces were never removed.  This contradicts
the spec's invariant that no unresolved or escaped variable form
survives full resolution. -/
theorem c1_unresolved_variable_survives_resolution :
    Except.map ResolvedAction.docker_invocation
        (parse_project_yaml testEnv [] projTwoVars jobRunModel) =
      .ok ["--volume",
           "/tmp/storage/mediumsecurity/repo-master-full:/tmp/storage/mediumsecurity/repo-master-full",
           "--volume",
           "/tmp/storage/highsecurity/repo-master-full:/tmp/storage/highsecurity/repo-master-full",
           "docker.pkg.github.com/opensafely/stata-docker/stata-mp:latest",
           "$\x7b\x7b\x7b\x7bneeds.a.outputs.x\x7d\x7d\x7d\x7d",
           "$\x7b\x7b\x7b\x7b",
           "needs.b.outputs.y",
           "\x7d\x7d\x7d\x7d"] ∧
    listContainsSub ("$\x7b\x7b\x7b\x7bneeds.a.outputs.x\x7d\x7d\x7d\x7d".toList) ("$\x7b\x7b".toList) =
      true :=
  ⟨rfl, rfl⟩

/-- A project with a duplicated run signature before an action with an
unregistered run token. -/
def projDupThenBad : List (String × ActionConfig) :=
  [("a1", ⟨"cohortextractor x", [], []⟩),
   ("a2", ⟨"cohortextractor x", [], []⟩),
   ("a3", ⟨"badcmd", [], []⟩)]

/-- C7 counterexample: a definition containing an action with an
unregistered run token (`badcmd`) need not raise
`InvalidRunInProjectFile`: an earlier action pair with a duplicate run
signature raises `DuplicateRunInProjectFile` first. -/
theorem c7_counterexample :
    parse_project_yaml testEnv [] projDupThenBad ⟨"zzz", "r", "full", "t"⟩ =
      .error (.duplicateRunInProjectFile "cohortextractor" ["x"] true) :=
  rfl

/-- C7 amended: provided every action earlier in the file validates
cleanly and the offending action's run command tokenizes, an
unregistered run token fails the WHOLE resolution with
`InvalidRunInProjectFile` for EVERY job — in particular when the
requested operation is a different action or absent — because the
registry check runs during whole-file validation, before the
unknown-operation check and any materialization. -/
theorem c7_amended_eager_token_validation (env : Environ) (fs : List String)
    (pre : List (String × ActionConfig)) (aid : String) (cfg : ActionConfig)
    (post : List (String × ActionConfig)) (job : Job) (seen : List String)
    (name version : String) (args : List String)
    (hpre : load_validate_aux pre [] = .ok seen)
    (hsplit : split_and_format_run_command cfg.run = .ok (name, version, args))
    (hlook : List.lookup name RUN_COMMANDS_CONFIG = none) :
    parse_project_yaml env fs (pre ++ (aid, cfg) :: post) job =
      .error (.invalidRunInProjectFile name) := by
  have h2 : load_validate_aux ((aid, cfg) :: post) seen = .error (.invalidRunInProjectFile name) := by
    simp only [load_validate_aux, hsplit, hlook, Option.isNone_none, if_true]
  have hval : load_validate_aux (pre ++ (aid, cfg) :: post) [] =
      .error (.invalidRunInProjectFile name) := by
    rw [load_validate_aux_append, hpre]
    exact h2
  unfold parse_project_yaml
  rw [hval]

/-- C7 witness: with one valid action before it, a `badcmd` action
poisons resolution even for a job requesting an operation that is not
in the file at all. -/
theorem c7_witness :
    parse_project_yaml testEnv [] [("a", ⟨"cohortextractor x", [], []⟩), ("b", ⟨"badcmd", [], []⟩)]
      ⟨"nope", "r", "full", "t"⟩ = .error (.invalidRunInProjectFile "badcmd") :=
  c7_amended_eager_token_validation testEnv [] [("a", ⟨"cohortextractor x", [], []⟩)] "b"
    ⟨"badcmd", [], []⟩ [] ⟨"nope", "r", "full", "t"⟩ ["cohortextractor_[\x27x\x27]"]
    "badcmd" "latest" [] rfl rfl rfl

/-- Destructures a dotted-split equation into its four components. -/
lemma splitDots_four (v X Y : String)
    (h : (splitOnChar '.' v.toList).map String.mk = ["needs", X, "outputs", Y]) :
    ∃ a b c d, splitOnChar '.' v.toList = [a, b, c, d] ∧
      String.mk a = "needs" ∧ String.mk b = X ∧ String.mk c = "outputs" ∧ String.mk d = Y := by
  rcases e : splitOnChar '.' v.toList with _ | ⟨a, _ | ⟨b, _ | ⟨c, _ | ⟨d, _ | ⟨x, tl⟩⟩⟩⟩⟩ <;>
    rw [e] at h <;> simp at h
  exact ⟨a, b, c, d, rfl, h.1, h.2.1, h.2.2.1, h.2.2.2⟩

/-- Specification-side description of how one argument resolves, for
comparison with `interpolateArg`: either it has no variable reference
and passes through unchanged, or it has exactly one reference
`needs.X.outputs.Y` that resolves through the dependency map to the
join of X's `output_path` with Y's declared filename. -/
def specResolvesArg (deps : List (String × ResolvedAction)) (arg out : String) : Prop :=
  (variables_in_string arg true = [] ∧ out = arg) ∨
  (∃ v X Y depAct fname,
    variables_in_string arg true = [v] ∧
    (splitOnChar '.' v.toList).map String.mk = ["needs", X, "outputs", Y] ∧
    List.lookup X deps = some depAct ∧
    List.lookup Y depAct.config.outputs = some (.str fname) ∧
    out = os_path_join depAct.output_path fname)

/-- C3: when every argument either has no variable reference (and is
returned unchanged) or has exactly one fully resolving
`needs.X.outputs.Y` reference (and becomes `output_path/filename`),
interpolation succeeds and returns exactly those values, in order. -/
theorem c3_interpolation_success (deps : List (String × ResolvedAction))
    (args outs : List String) (h : List.Forall₂ (specResolvesArg deps) args outs) :
    interpolate_variables args deps = .ok outs := by
  induction h with
  | nil => rfl
  | @cons a b as bs hrel hrest ih =>
    have hone : interpolateArg deps a = .ok b := by
      rcases hrel with ⟨hnone, rfl⟩ | ⟨v, X, Y, depAct, fname, hv, hsp, hX, hY, rfl⟩
      · simp only [interpolateArg, hnone]
      · obtain ⟨a', b', c', d', he, ha', hb', hc', hd'⟩ := splitDots_four v X Y hsp
        simp only [interpolateArg, hv, he, hb', hX, hc', getItem_outputs, hd', hY]
    have ih' : exceptMapList (interpolateArg deps) as = .ok bs := ih
    simp only [interpolate_variables, exceptMapList, hone, ih']

/-- A materialized `generate_cohorts` dependency used by the C3
witness. -/
def depCohort : ResolvedAction :=
  ⟨⟨"cohortextractor", [], [("cohort", .str "input.csv")]⟩, "generate_cohorts",
   "sqlite:///test.db", "/high/vol", none, "cn", [], "CohortExtractorError"⟩

/-- C3 witness: a passthrough argument stays unchanged and a
single-reference argument becomes the dependency's output path joined
with the declared filename. -/
theorem c3_witness :
    interpolate_variables
      ["analysis/model.do", "$\x7b\x7bneeds.generate_cohorts.outputs.cohort\x7d\x7d"]
      [("generate_cohorts", depCohort)] = .ok ["analysis/model.do", "/high/vol/input.csv"] :=
  c3_interpolation_success [("generate_cohorts", depCohort)]
    ["analysis/model.do", "$\x7b\x7bneeds.generate_cohorts.outputs.cohort\x7d\x7d"]
    ["analysis/model.do", "/high/vol/input.csv"]
    (List.Forall₂.cons (Or.inl ⟨rfl, rfl⟩)
      (List.Forall₂.cons
        (Or.inr ⟨"needs.generate_cohorts.outputs.cohort", "generate_cohorts", "cohort",
          depCohort, "input.csv", rfl, rfl, rfl, rfl, rfl⟩)
        List.Forall₂.nil))

/-- Formatting the output-volume mount template against the runtime
field map yields `output_path:output_path`. -/
lemma pyFormat_output_mount (action : ActionConfig) (i d p c : String) (inp : Option String) :
    pyFormat "\x7boutput_path\x7d:\x7boutput_path\x7d" (runtimeFormatMap action i d p c inp) =
      .ok (p ++ ":" ++ p) := by
  have h1 : pyFormat "\x7boutput_path\x7d:\x7boutput_path\x7d" (runtimeFormatMap action i d p c inp) =
      .ok (String.mk (p.toList ++ ':' :: (p.toList ++ []))) := rfl
  have h2 : p ++ ":" ++ p = String.mk ((p.data ++ [':']) ++ p.data) := rfl
  rw [h1, h2]
  congr 1
  simp

/-- Formatting the `--database-url=` template against the runtime field
map substitutes the database URL. -/
lemma pyFormat_database_url (action : ActionConfig) (i d p c : String) (inp : Option String) :
    pyFormat "--database-url=\x7bdatabase_url\x7d" (runtimeFormatMap action i d p c inp) =
      .ok ("--database-url=" ++ d) := by
  have h1 : pyFormat "--database-url=\x7bdatabase_url\x7d" (runtimeFormatMap action i d p c inp) =
      .ok (String.mk ("--database-url=".toList ++ (d.toList ++ []))) := rfl
  have h2 : "--database-url=" ++ d = String.mk ("--database-url=".data ++ d.data) := rfl
  rw [h1, h2]
  congr 1
  simp

/-- C4 amended: for an action whose command spec declares NO input
privacy tier (forcing the `cohortextractor` spec) and a non-empty
version, the docker invocation is exactly one output-volume mount pair,
the image suffixed with the version, the spec's fixed arguments with
their placeholders substituted, then the action's positional arguments
(formatted), with no other elements.  (An empty `needs` list does NOT
suffice: see `c4_counterexample`.) -/
theorem c4_amended_no_input_tier_invocation (env : Environ) (action : ActionConfig)
    (action_id repo db tag name version : String) (args : List String) (info : RunCommandInfo)
    (dburl p imgv : String) (args2 : List String)
    (hsplit : split_and_format_run_command action.run = .ok (name, version, args))
    (hlook : List.lookup name RUN_COMMANDS_CONFIG = some info)
    (hinp : info.input_privacy_level = none)
    (hdb : List.lookup (pyUpper db ++ "_DATABASE_URL") env.database_urls = some dburl)
    (hout : make_path env repo tag db info.output_privacy_level = .ok p)
    (hver : version ≠ "")
    (himg : pyFormat
      ("docker.pkg.github.com/opensafely/cohort-extractor/cohort-extractor" ++ ":" ++ version)
      (runtimeFormatMap action action_id dburl p (make_container_name p) none) = .ok imgv)
    (hargs : exceptMapList (fun a => pyFormat a
      (runtimeFormatMap action action_id dburl p (make_container_name p) none)) args = .ok args2) :
    add_runtime_metadata env action action_id repo db tag =
      .ok ⟨action, action_id, dburl, p, none, make_container_name p,
        "--volume" :: (p ++ ":" ++ p) :: imgv :: "generate_cohort" ::
          ("--database-url=" ++ dburl) :: "--output-dir=/workspace" :: args2,
        "CohortExtractorError"⟩ := by
  have hname : name = "cohortextractor" ∧ info = cohortextractorInfo := by
    by_cases h1 : name = "cohortextractor"
    · subst h1
      refine ⟨rfl, ?_⟩
      rw [show List.lookup "cohortextractor" RUN_COMMANDS_CONFIG = some cohortextractorInfo
        from rfl] at hlook
      injection hlook with h
      exact h.symm
    · by_cases h2 : name = "stata-mp"
      · subst h2
        rw [show List.lookup "stata-mp" RUN_COMMANDS_CONFIG = some stataInfo from rfl] at hlook
        injection hlook with h
        rw [← h] at hinp
        exact absurd hinp (by decide)
      · have hnone : List.lookup name RUN_COMMANDS_CONFIG = none := by
          have hb1 : (name == "cohortextractor") = false := by simp [h1]
          have hb2 : (name == "stata-mp") = false := by simp [h2]
          simp [RUN_COMMANDS_CONFIG, List.lookup, hb1, hb2]
        rw [hnone] at hlook
        cases hlook
  obtain ⟨h1, h2⟩ := hname
  subst h1
  subst h2
  have hl : List.lookup "cohortextractor" RUN_COMMANDS_CONFIG = some cohortextractorInfo := rfl
  have hv : versionedInvocation cohortextractorInfo.docker_invocation version =
      .ok (("docker.pkg.github.com/opensafely/cohort-extractor/cohort-extractor" ++ ":" ++ version)
        :: ["generate_cohort", "--database-url=\x7bdatabase_url\x7d", "--output-dir=/workspace"]) := by
    unfold versionedInvocation
    rw [if_pos hver]
    rfl
  have hi : cohortextractorInfo.input_privacy_level = none := rfl
  have e1 : pyFormat "--volume"
      (runtimeFormatMap action action_id dburl p (make_container_name p) none) = .ok "--volume" :=
    rfl
  have e2 := pyFormat_output_mount action action_id dburl p (make_container_name p) none
  have e3 : pyFormat "generate_cohort"
      (runtimeFormatMap action action_id dburl p (make_container_name p) none) =
      .ok "generate_cohort" := rfl
  have e4 := pyFormat_database_url action action_id dburl p (make_container_name p) none
  have e5 : pyFormat "--output-dir=/workspace"
      (runtimeFormatMap action action_id dburl p (make_container_name p) none) =
      .ok "--output-dir=/workspace" := rfl
  simp only [add_runtime_metadata, hsplit, hl, hdb, hv, hout, hi, finish_runtime_metadata,
    List.append_eq, List.cons_append, List.nil_append, exceptMapList, e1, e2, e3, e4, e5,
    himg, hargs]
  rfl

/-- C4 witness: the test environment's no-dependency cohortextractor
action materializes to exactly the invocation the repository's
`test_job_to_project_nodeps` asserts. -/
theorem c4_witness :
    add_runtime_metadata testEnv ⟨"cohortextractor", [], [("cohort", .str "input.csv")]⟩
      "generate_cohorts" "https://github.com/repo" "full" "master" =
      .ok ⟨⟨"cohortextractor", [], [("cohort", .str "input.csv")]⟩, "generate_cohorts",
        "sqlite:///test.db", "/tmp/storage/highsecurity/repo-master-full", none,
        "tmp-storage-highsecurity-repo-master-full",
        ["--volume",
         "/tmp/storage/highsecurity/repo-master-full:/tmp/storage/highsecurity/repo-master-full",
         "docker.pkg.github.com/opensafely/cohort-extractor/cohort-extractor:latest",
         "generate_cohort", "--database-url=sqlite:///test.db", "--output-dir=/workspace"],
        "CohortExtractorError"⟩ :=
  c4_amended_no_input_tier_invocation testEnv ⟨"cohortextractor", [], [("cohort", .str "input.csv")]⟩
    "generate_cohorts" "https://github.com/repo" "full" "master" "cohortextractor" "latest" []
    cohortextractorInfo "sqlite:///test.db" "/tmp/storage/highsecurity/repo-master-full"
    "docker.pkg.github.com/opensafely/cohort-extractor/cohort-extractor:latest" []
    rfl rfl rfl rfl rfl (by decide) rfl rfl

/-- C4 counterexample: an action with an EMPTY `needs` list whose spec
declares an input tier (`stata-mp`) gets TWO volume mount pairs, so
"needs is empty" does not imply "exactly one output-volume mount
pair". -/
theorem c4_counterexample :
    Except.map ResolvedAction.docker_invocation
      (add_runtime_metadata testEnv ⟨"stata-mp analysis/model.do", [], []⟩ "run_model"
        "https://github.com/repo" "full" "master") =
      .ok ["--volume",
           "/tmp/storage/mediumsecurity/repo-master-full:/tmp/storage/mediumsecurity/repo-master-full",
           "--volume",
           "/tmp/storage/highsecurity/repo-master-full:/tmp/storage/highsecurity/repo-master-full",
           "docker.pkg.github.com/opensafely/stata-docker/stata-mp:latest",
           "analysis/model.do"] ∧
    (["--volume",
      "/tmp/storage/mediumsecurity/repo-master-full:/tmp/storage/mediumsecurity/repo-master-full",
      "--volume",
      "/tmp/storage/highsecurity/repo-master-full:/tmp/storage/highsecurity/repo-master-full",
      "docker.pkg.github.com/opensafely/stata-docker/stata-mp:latest",
      "analysis/model.do"].count "--volume" ≠ 1) :=
  ⟨rfl, by decide⟩

/-- C6: when resolution reaches the dependency checks and the first
dependency with a missing declared output is `d`, the whole resolution
fails with `DependencyNotFinished` whose message names `d` and the
first missing expected path `output_path/filename`. -/
theorem c6_dependency_not_finished (env : Environ) (fs : List String)
    (project : List (String × ActionConfig)) (job : Job) (reqCfg : ActionConfig)
    (jobAction : ResolvedAction) (pre : List String) (d : String) (post : List String)
    (cfgd : ActionConfig) (ad : ResolvedAction)
    (opre opost : List (String × PyVal)) (oname fname : String) (seen : List String)
    (hval : load_validate_aux project [] = .ok seen)
    (hop : List.lookup job.operation project = some reqCfg)
    (hjob : add_runtime_metadata env reqCfg job.operation job.repo job.db job.tag = .ok jobAction)
    (hdeps : dedupFirst reqCfg.needs = pre ++ d :: post)
    (hpre : ∀ d' ∈ pre, ∃ c a, List.lookup d' project = some c ∧
      add_runtime_metadata env c d' job.repo job.db job.tag = .ok a ∧
      raise_if_unfinished fs a = .ok ())
    (hd : List.lookup d project = some cfgd)
    (had : add_runtime_metadata env cfgd d job.repo job.db job.tag = .ok ad)
    (houts : ad.config.outputs = opre ++ (oname, PyVal.str fname) :: opost)
    (hopre : ∀ pv ∈ opre, ∃ n f, pv = (n, PyVal.str f) ∧
      fs.contains (os_path_join ad.output_path f) = true)
    (hmiss : fs.contains (os_path_join ad.output_path fname) = false) :
    parse_project_yaml env fs project job =
      .error (.dependencyNotFinished
        ("No output for " ++ d ++ " at " ++ os_path_join ad.output_path fname) true) := by
  have haid : ad.action_id = d := add_runtime_metadata_action_id had
  have hraise : raise_if_unfinished fs ad =
      .error (.dependencyNotFinished
        ("No output for " ++ d ++ " at " ++ os_path_join ad.output_path fname) true) := by
    have h := raise_go_first_missing fs ad opre opost oname fname hopre hmiss
    rw [haid] at h
    unfold raise_if_unfinished
    rw [houts]
    exact h
  have hproc1 : processDeps env fs project job.repo job.db job.tag (d :: post) =
      .error (.dependencyNotFinished
        ("No output for " ++ d ++ " at " ++ os_path_join ad.output_path fname) true) := by
    simp only [processDeps, hd, had, hraise]
  have hproc : processDeps env fs project job.repo job.db job.tag (pre ++ d :: post) =
      .error (.dependencyNotFinished
        ("No output for " ++ d ++ " at " ++ os_path_join ad.output_path fname) true) :=
    processDeps_append_error env fs project job.repo job.db job.tag pre (d :: post) _ hpre hproc1
  simp only [parse_project_yaml, hval, hop, hjob, hdeps, hproc]

/-- The two-action project of the repository's `simple_project_1`
fixture: a cohort extraction and a stata model depending on it. -/
def simpleProject : List (String × ActionConfig) :=
  [("generate_cohorts", ⟨"cohortextractor", [], [("cohort", .str "input.csv")]⟩),
   ("run_model",
    ⟨"stata-mp analysis/model.do $\x7b\x7b needs.generate_cohorts.outputs.cohort \x7d\x7d",
     ["generate_cohorts"], [("log", .str "model.log")]⟩)]

/-- C6 witness: on an empty filesystem, requesting `run_model` fails
with exactly the message the repository's
`test_project_dependency_exception` asserts. -/
theorem c6_witness :
    parse_project_yaml testEnv [] simpleProject jobRunModel =
      .error (.dependencyNotFinished
        "No output for generate_cohorts at /tmp/storage/highsecurity/repo-master-full/input.csv"
        true) :=
  c6_dependency_not_finished testEnv [] simpleProject jobRunModel
    ⟨"stata-mp analysis/model.do $\x7b\x7b needs.generate_cohorts.outputs.cohort \x7d\x7d",
     ["generate_cohorts"], [("log", .str "model.log")]⟩
    _ [] "generate_cohorts" [] ⟨"cohortextractor", [], [("cohort", .str "input.csv")]⟩ _
    [] [] "cohort" "input.csv" _
    rfl rfl rfl rfl (by simp) rfl rfl rfl (by simp) rfl
